import Mathlib

set_option maxRecDepth 4000

/-!
Verification development for the serving core of the vite no-bundle dev
server: the module-rewrite engine (`rewriteImports`, `resolveImport`, the
rewrite middleware and its watcher handler in
`src/node/server/serverPluginModuleRewrite.ts`) and the cached file reader
(`cachedRead` in the utils module).

External collaborators that are not part of the repository sources
(the `es-module-lexer` npm package, `magic-string`, the resolver created in
`resolver.ts`, and the HMR plugin state) are represented either as explicit
function parameters or as definitions modelled from the specification; each
such definition says so in its doc comment.
-/

/-! ## Basic string helpers -/

/-- Decides whether `pat` occurs at the head of `l` (helper for substring search). -/
def listHasPre : List Char → List Char → Bool
  | _, [] => true
  | [], _ :: _ => false
  | a :: as, b :: bs => a == b && listHasPre as bs

/-- JavaScript `hay.includes(pat)` on character lists. -/
def listIncl : List Char → List Char → Bool
  | [], pat => pat.isEmpty
  | c :: rest, pat => listHasPre (c :: rest) pat || listIncl rest pat

/-- JavaScript `s.includes(pat)`. -/
def strIncludes (s pat : String) : Bool :=
  listIncl s.toList pat.toList

/-- JavaScript `String.prototype.substring`: clamps both indices to the string
length and swaps them when given in descending order. -/
def jsSubstring (l : List Char) (a b : Nat) : List Char :=
  let aa := min a l.length
  let bb := min b l.length
  (l.take (max aa bb)).drop (min aa bb)

/-- Modelled from the spec: `cleanUrl` from `utils` (not under `src/`) strips
the query and fragment, i.e. everything from the first `?` or `#` on. -/
def cleanUrl (s : String) : String :=
  (s.toList.takeWhile (fun c => !(c == '?') && !(c == '#'))).asString

/-- JavaScript `s.startsWith(pre)`. -/
def strStartsWith (s pre : String) : Bool :=
  listHasPre s.toList pre.toList

/-- JavaScript `s.endsWith(suf)`. -/
def strEndsWith (s suf : String) : Bool :=
  listHasPre s.toList.reverse suf.toList.reverse

/-- Modelled from the spec: `isExternalUrl` from `utils` (not under `src/`)
recognises protocol-relative and `http(s):` URLs. -/
def isExternalUrl (id : String) : Bool :=
  strStartsWith id "http://" || strStartsWith id "https://" || strStartsWith id "//"

/-- Modelled from the spec: `bareImportRE` from the resolver (not under
`src/`); a bare specifier is an import name without `./`, `/`, or protocol. -/
def bareImportRE (id : String) : Bool :=
  !(id == "") && !strStartsWith id "/" && !strStartsWith id "." && !isExternalUrl id

/-- Modelled from the spec: `jsSrcRE` from the resolver (not under `src/`);
the JS source extensions are `[.ts,.tsx,.js,.jsx,.mjs,.vue,.json]`. -/
def jsSrcRE (p : String) : Bool :=
  [".ts", ".tsx", ".js", ".jsx", ".mjs", ".vue", ".json"].any (fun e => strEndsWith p e)

/-- Node `path.extname`: the extension of the last path segment, empty when the
segment has no dot or only a leading dot. -/
def extname (p : String) : String :=
  let b := (p.toList.reverse.takeWhile (fun c => !(c == '/'))).reverse
  let afterDotRev := b.reverse.takeWhile (fun c => !(c == '.'))
  if afterDotRev.length + 1 < b.length then ('.' :: afterDotRev.reverse).asString
  else if afterDotRev.length + 1 == b.length then ""
  else ""

/-- JavaScript truthiness of an optional query-string value (`undefined` and
the empty string are falsy). -/
def jsTruthy : Option String → Bool
  | none => false
  | some s => !(s == "")

/-- JavaScript `id.includes('?')`. -/
def hasQmark (s : String) : Bool :=
  s.toList.any (fun c => c == '?')

/-- Modelled from the spec: `clientPublicPath` from `serverPluginClient`
(not under `src/`), the URL of the internal HMR client runtime. -/
def clientPublicPath : String := "/vite/client"

/-- Modelled from the spec: `envPublicPath` from `serverPluginEnv`
(not under `src/`); the spec scenario shows it is `/vite/env`. -/
def envPublicPath : String := "/vite/env"

/-! ## MagicString

Shallow model of the `magic-string` npm package as used by the rewriter:
`overwrite` records a non-overlapping in-bounds replacement of a source span
(and throws otherwise), `prepend` adds text in front, `toString` renders the
edited source. -/

structure MagicStringState where
  source : List Char
  intro : List Char
  edits : List (Nat × Nat × List Char)
deriving DecidableEq

/-- Fresh MagicString over a source string (no edits, empty intro). -/
def MagicStringState.mk0 (src : String) : MagicStringState :=
  ⟨src.toList, [], []⟩

/-- True when the half-open span `[s, e)` intersects a recorded edit. -/
def editsOverlap (s e : Nat) (edits : List (Nat × Nat × List Char)) : Bool :=
  edits.any (fun t => t.1 < e && s < t.2.1)

/-- MagicString `overwrite(start, end, content)`: throws when the span is out
of bounds, empty/inverted, or overlaps an already-edited chunk. -/
def MagicStringState.overwrite (ms : MagicStringState) (s e : Nat) (content : List Char) :
    Except String MagicStringState :=
  if e > ms.source.length then .error "end is out of bounds"
  else if s ≥ e then .error "cannot overwrite a zero-length range"
  else if editsOverlap s e ms.edits then .error "chunk has already been edited"
  else .ok { ms with edits := ms.edits ++ [(s, e, content)] }

/-- MagicString `prepend(content)`: new content goes in front of the intro. -/
def MagicStringState.prepend (ms : MagicStringState) (content : List Char) : MagicStringState :=
  { ms with intro := content ++ ms.intro }

/-- Insert one edit into a list of edits sorted by start offset. -/
def insertEdit (x : Nat × Nat × List Char) :
    List (Nat × Nat × List Char) → List (Nat × Nat × List Char)
  | [] => [x]
  | y :: ys => if x.1 ≤ y.1 then x :: y :: ys else y :: insertEdit x ys

/-- Sort edits by start offset (insertion sort). -/
def sortEdits (l : List (Nat × Nat × List Char)) : List (Nat × Nat × List Char) :=
  l.foldr insertEdit []

/-- Apply already-sorted, non-overlapping edits to the tail of the source that
starts at absolute offset `pos`. -/
def applyEdits : Nat → List Char → List (Nat × Nat × List Char) → List Char
  | _, rest, [] => rest
  | pos, rest, (s, e, c) :: es => rest.take (s - pos) ++ c ++ applyEdits e (rest.drop (e - pos)) es

/-- MagicString `toString()`: the intro followed by the edited source. -/
def MagicStringState.render (ms : MagicStringState) : List Char :=
  ms.intro ++ applyEdits 0 ms.source (sortEdits ms.edits)

/-- MagicString `toString()` as a `String`. -/
def MagicStringState.renderStr (ms : MagicStringState) : String :=
  ms.render.asString

/-! ## The resolver interface and external collaborators -/

/-- The `InternalResolver` interface consumed by the rewriter; the resolver
implementation lives in `resolver.ts` which is not under `src/`, and
`rewriteImports` only ever calls it through these methods. `aliasFn` returns
`none` when no user alias applies (the source uses `resolver.alias(id) || id`);
`resolveRelativeRequest` returns the `{ pathname, query }` pair (the query
includes its leading `?` when present). -/
structure InternalResolver where
  aliasFn : String → Option String
  resolveRelativeRequest : String → String → String × String
  normalizePublicPath : String → String
  fileToRequest : String → String

/-- An import span reported by the `es-module-lexer` npm package: `s`/`e` are
the start/end offsets of the specifier and `d` is the dynamic-import index
(`-1` for a static import, `-2` for `import.meta`, `≥ 0` for a dynamic
import). -/
structure ImportSpecifier where
  s : Nat
  e : Nat
  d : Int
deriving DecidableEq

/-- External collaborators of `rewriteImports` that are not repository code
under `src/`: `lex` is `es-module-lexer`'s `parse` (first component), `hmrRw`
is `rewriteFileWithHMR` from `serverPluginHmr` (takes root, source, importer,
resolver and the MagicString being built), `dirty` is `hmrDirtyFilesMap`,
`latest` is `latestVersionsMap`, and `bareResolve` is
`resolveBareModuleRequest(root, id, importer)` which consults package
manifests on disk. -/
structure RewriteExternals where
  lex : String → Except Unit (List ImportSpecifier)
  hmrRw : String → String → String → InternalResolver → MagicStringState → MagicStringState
  dirty : String → Option (Finset String)
  latest : String → Option String
  bareResolve : String → String → String → String

/-! ## resolveImport (serverPluginModuleRewrite.ts, lines 257-305) -/

/-- Embedding of `resolveImport`: apply a user alias, send bare specifiers to
`/@modules/`, otherwise resolve the request relative to the importer,
normalize the public path, mark non-JS asset imports with `?import`, and
finally stamp a `t=` version query for dirty or previously-updated files. -/
def resolveImport (ext : RewriteExternals) (root importer id0 : String)
    (resolver : InternalResolver) (timestamp : Option String) : String :=
  let id1 := (resolver.aliasFn id0).getD id0
  let id2 :=
    if bareImportRE id1 then
      "/@modules/" ++ ext.bareResolve root id1 importer
    else
      let pr := resolver.resolveRelativeRequest importer id1
      let pathname := resolver.normalizePublicPath pr.1
      let query :=
        if pr.2 == "" && !(extname pathname == "") && !jsSrcRE pathname then
          pr.2 ++ "?import"
        else pr.2
      pathname ++ query
  if jsTruthy timestamp then
    let t := timestamp.getD ""
    let cleanId := cleanUrl id2
    let dirtyHit : Bool :=
      match ext.dirty t with
      | some df => decide (cleanId ∈ df)
      | none => false
    if dirtyHit then
      id2 ++ (if hasQmark id2 then "&" else "?") ++ "t=" ++ t
    else
      match ext.latest cleanId with
      | some v => id2 ++ (if hasQmark id2 then "&" else "?") ++ "t=" ++ v
      | none => id2
  else id2

/-! ## The import graph -/

/-- The importer/importee maps owned by `serverPluginHmr` (maps from clean ids
to sets of clean ids); `rewriteImports` is the only writer of `importeeMap`
and adds/removes importer edges in `importerMap`. -/
structure Graph where
  importeeMap : String → Option (Finset String)
  importerMap : String → Option (Finset String)

/-- The maps start out empty when the server boots. -/
def Graph.empty : Graph := ⟨fun _ => none, fun _ => none⟩

/-- Pointwise update of a string-keyed map. -/
def updateFn (m : String → Option (Finset String)) (k : String) (v : Option (Finset String)) :
    String → Option (Finset String) :=
  fun x => if x = k then v else m x

/-- The importers of `a` (empty when `a` has no entry). -/
def memImporters (g : Graph) (a : String) : Finset String :=
  (g.importerMap a).getD ∅

/-- The importees of `b` (empty when `b` has no entry). -/
def memImportees (g : Graph) (b : String) : Finset String :=
  (g.importeeMap b).getD ∅

/-- Invariant I1 of the spec: `b ∈ importers[a]` iff `a ∈ importees[b]`. -/
def GraphInv (g : Graph) : Prop :=
  ∀ a b : String, b ∈ memImporters g a ↔ a ∈ memImportees g b

/-! ## rewriteImports (serverPluginModuleRewrite.ts, lines 119-255) -/

/-- The env preamble the rewriter prepends when the source mentions
`import.meta.env` (serverPluginModuleRewrite.ts, lines 215-222). -/
def envPreamble : String :=
  "import __VITE_ENV__ from \"" ++ envPublicPath ++ "\"; " ++ "import.meta.env = __VITE_ENV__; "

/-- State threaded through the per-import loop of `rewriteImports`: the
MagicString being edited, the freshly collected importee set
(`currentImportees`), the importer map being updated in place, and the
`hasReplaced` flag. -/
structure LoopState where
  ms : MagicStringState
  curr : Finset String
  imap : String → Option (Finset String)
  hasReplaced : Bool

/-- The raw text of an import span, `source.substring(start, end)`. -/
def specRawId (srcL : List Char) (sp : ImportSpecifier) : List Char :=
  jsSubstring srcL sp.s sp.e

/-- For a dynamic import, the literal inside the quotes when the span matches
the regex `^(?:'([^']+)'|"([^"]+)")$`. -/
def literalDynamicId (id : List Char) : Option (List Char) :=
  match id with
  | [] => none
  | q :: rest =>
    if q == '\'' || q == '"' then
      match rest.reverse with
      | [] => none
      | lastC :: midRev =>
        if lastC == q && !midRev.isEmpty && !midRev.contains q then some midRev.reverse
        else none
    else none

/-- The literal id of a dynamic-import span (`none` for static imports and for
dynamic imports whose argument is not a plain string literal). -/
def specLit (srcL : List Char) (sp : ImportSpecifier) : Option (List Char) :=
  if sp.d ≥ 0 then literalDynamicId (specRawId srcL sp) else none

/-- The specifier text the rewriter works with: the quoted literal for a
literal dynamic import, the raw span otherwise. -/
def specIdStr (srcL : List Char) (sp : ImportSpecifier) : String :=
  ((specLit srcL sp).getD (specRawId srcL sp)).asString

/-- The condition `dynamicIndex === -1 || hasLiteralDynamicId` under which the
span is rewritten and tracked. -/
def specStatic (srcL : List Char) (sp : ImportSpecifier) : Bool :=
  sp.d == -1 || (specLit srcL sp).isSome

/-- Record the importee edge for the current import span: add it to
`currentImportees` and add the importer to `ensureMapEntry(importerMap,
importee)`, skipping self-imports and the internal client path. -/
def trackImportee (importer importee : String) (st : LoopState) : LoopState :=
  if importee ≠ importer ∧ importee ≠ clientPublicPath then
    { st with
      curr := insert importee st.curr,
      imap := updateFn st.imap importee (some (insert importer ((st.imap importee).getD ∅))) }
  else st

/-- The replacement text written over an import span: the resolved specifier,
re-quoted for a literal dynamic import. -/
def overwriteContent (srcL : List Char) (sp : ImportSpecifier) (resolved : String) : List Char :=
  if (specLit srcL sp).isSome then '\'' :: (resolved.toList ++ ['\'']) else resolved.toList

/-- One iteration of the import loop of `rewriteImports`: skip external URLs
and non-literal dynamic imports, resolve the specifier, overwrite the span
when the resolution changed it (a MagicString failure aborts the whole
rewrite), and track the importer/importee edge. The `Bool` is false when the
iteration threw. -/
def rewriteStep (ext : RewriteExternals) (root importer : String) (resolver : InternalResolver)
    (timestamp : Option String) (srcL : List Char) (st : LoopState) (sp : ImportSpecifier) :
    LoopState × Bool :=
  if specStatic srcL sp then
    let id := specIdStr srcL sp
    if isExternalUrl id then (st, true)
    else
      let resolved := resolveImport ext root importer id resolver timestamp
      if resolved = id then (trackImportee importer (cleanUrl resolved) st, true)
      else
        match st.ms.overwrite sp.s sp.e (overwriteContent srcL sp resolved) with
        | .ok ms2 =>
          (trackImportee importer (cleanUrl resolved) { st with ms := ms2, hasReplaced := true },
           true)
        | .error _ => (st, false)
  else (st, true)

/-- The import loop of `rewriteImports`; stops at the first throwing
iteration, returning the state reached so far. -/
def rewriteLoop (ext : RewriteExternals) (root importer : String) (resolver : InternalResolver)
    (timestamp : Option String) (srcL : List Char) :
    List ImportSpecifier → LoopState → LoopState × Bool
  | [], st => (st, true)
  | sp :: rest, st =>
    match rewriteStep ext root importer resolver timestamp srcL st sp with
    | (st2, true) => rewriteLoop ext root importer resolver timestamp srcL rest st2
    | (st2, false) => (st2, false)

/-- The result of the inner `try { imports = parseImports(source)[0] }`:
a lexer failure logs a warning and leaves `imports` empty. -/
def lexResult (ext : RewriteExternals) (source : String) : List ImportSpecifier :=
  match ext.lex source with
  | .ok l => l
  | .error _ => []

/-- The guard `imports.length || hasHMR || hasEnv` of `rewriteImports`. -/
def shouldRewrite (ext : RewriteExternals) (source : String) : Bool :=
  !(lexResult ext source).isEmpty
    || strIncludes source "import.meta.hot"
    || strIncludes source "import.meta.env"

/-- The full import loop run from the initial loop state (empty
`currentImportees`, the current importer map, fresh MagicString). -/
def loopRun (ext : RewriteExternals) (root source importer : String)
    (resolver : InternalResolver) (timestamp : Option String)
    (imap0 : String → Option (Finset String)) : LoopState × Bool :=
  rewriteLoop ext root importer resolver timestamp source.toList (lexResult ext source)
    ⟨MagicStringState.mk0 source, ∅, imap0, false⟩

/-- Remove the importer from `importers[x]` for every previous importee `x`
that is no longer imported (`prevImportees.forEach` in the source); a missing
`importers` entry is left missing. -/
def reconcileImporters (importer : String) (prev : Option (Finset String))
    (curr : Finset String) (imap : String → Option (Finset String)) :
    String → Option (Finset String) :=
  match prev with
  | none => imap
  | some p =>
    fun x => if x ∈ p ∧ x ∉ curr then (imap x).map (fun s => s.erase importer) else imap x

/-- The body of the outer `try` of `rewriteImports`. When the guard is taken,
the importee entry of the importer is replaced by the freshly collected set
(the source stores the mutable set in the map before the loop, so on a failure
the partially collected set is what the map holds and the stale-importer
reconciliation never runs); the rewritten text is produced only when the whole
body succeeds, and only when something was actually replaced. -/
def rewriteImportsE (ext : RewriteExternals) (root source importer : String)
    (resolver : InternalResolver) (timestamp : Option String) (g : Graph) :
    Except String String × Graph :=
  if shouldRewrite ext source then
    let hasHMR := strIncludes source "import.meta.hot"
    let hasEnv := strIncludes source "import.meta.env"
    let prev := g.importeeMap importer
    let run := loopRun ext root source importer resolver timestamp g.importerMap
    let st := run.1
    if run.2 then
      let ms1 := if hasHMR then ext.hmrRw root source importer resolver st.ms else st.ms
      let ms2 := if hasEnv then ms1.prepend envPreamble.toList else ms1
      let hasReplaced := st.hasReplaced || hasHMR || hasEnv
      let g2 : Graph :=
        ⟨updateFn g.importeeMap importer (some st.curr),
         reconcileImporters importer prev st.curr st.imap⟩
      (.ok (if hasReplaced then ms2.renderStr else source), g2)
    else
      (.error "module imports rewrite failed",
       ⟨updateFn g.importeeMap importer (some st.curr), st.imap⟩)
  else (.ok source, g)

/-- Embedding of `rewriteImports`: the outer `catch` logs the error and
returns the original source; graph mutations made before the failure are kept
(they are not rolled back). -/
def rewriteImports (ext : RewriteExternals) (root source importer : String)
    (resolver : InternalResolver) (timestamp : Option String) (g : Graph) : String × Graph :=
  match rewriteImportsE ext root source importer resolver timestamp g with
  | (.ok out, g2) => (out, g2)
  | (.error _, g2) => (source, g2)

/-! ## The rewrite middleware and the watcher handler
(serverPluginModuleRewrite.ts, lines 48-117) -/

/-- Association-list lookup for the rewrite cache. -/
def lookupAssoc : List (String × String) → String → Option String
  | [], _ => none
  | (a, b) :: rest, k => if a = k then some b else lookupAssoc rest k

/-- Delete a key from the rewrite cache (`rewriteCache.del`). -/
def delAssoc (k : String) (l : List (String × String)) : List (String × String) :=
  l.filter (fun p => !(p.1 == k))

/-- Store a key in the rewrite cache (`rewriteCache.set`). -/
def setAssoc (k v : String) (l : List (String × String)) : List (String × String) :=
  (k, v) :: delAssoc k l

/-- The request fields the rewrite middleware reads after `await next()`:
`respIsJs` is `ctx.response.is('js')` (a Koa content-type check), `vue` is the
flag set by the Vue plugin, `queryType`/`queryT` are `ctx.query.type` and
`ctx.query.t`. -/
structure MwCtx where
  path : String
  url : String
  status : Nat
  body : Option String
  respIsJs : Bool
  vue : Bool
  queryType : Option String
  queryT : Option String
deriving DecidableEq

/-- The process-wide state the middleware touches: the rewrite LRU cache
(modelled without its capacity bound) and the import graph. -/
structure MwState where
  rewriteCache : List (String × String)
  graph : Graph

/-- External utilities of the middleware that are not under `src/`:
`isCSS` is `isCSSRequest` from `cssUtils` and `ruq` is
`removeUnRelatedHmrQuery` from `utils`. -/
structure MwExternals where
  ext : RewriteExternals
  isCSS : String → Bool
  ruq : String → String

/-- Embedding of `readBody` from the utils module for a string body (the
middleware's bodies are modelled as strings; `readBody` returns a string body
unchanged). -/
def readBody : Option String → Option String := fun b => b

/-- The portion of the rewrite middleware that runs after `await next()`:
return untouched on 304, skip non-JS responses, serve the rewrite cache for
non-HMR requests, otherwise rewrite the body (caching the result unless this
is an HMR refetch). -/
def moduleRewriteMiddleware (mex : MwExternals) (root : String) (resolver : InternalResolver)
    (ctx : MwCtx) (st : MwState) : MwCtx × MwState :=
  if ctx.status = 304 then (ctx, st)
  else if jsTruthy ctx.body && ctx.respIsJs && !mex.isCSS ctx.path
      && !strEndsWith ctx.url ".map" && !(ctx.path == clientPublicPath)
      && !((strEndsWith ctx.path ".vue" || ctx.vue) && (ctx.queryType == some "style")) then
    let content := (readBody ctx.body).getD ""
    let cacheKey := ctx.path ++ content
    let isHmrRequest := jsTruthy ctx.queryT
    if !isHmrRequest && (lookupAssoc st.rewriteCache cacheKey).isSome then
      ({ ctx with body := lookupAssoc st.rewriteCache cacheKey }, st)
    else
      let importer := mex.ruq (resolver.normalizePublicPath ctx.url)
      let r := rewriteImports mex.ext root content importer resolver ctx.queryT st.graph
      ({ ctx with body := some r.1 },
       { rewriteCache := if !isHmrRequest then setAssoc cacheKey r.1 st.rewriteCache
                         else st.rewriteCache,
         graph := r.2 })
  else (ctx, st)

/-! ## cachedRead (utils, src/unnamed/part_000, lines 28-74) -/

/-- One entry of the `fsReadCache` LRU (modelled without its capacity bound):
mtime in milliseconds, the computed ETag and the file bytes. -/
structure CacheEntry where
  lastModified : Nat
  etag : String
  content : String
deriving DecidableEq

/-- The request fields `cachedRead` reads from the Koa context. -/
structure CtxIn where
  url : String
  ifNoneMatch : String
deriving DecidableEq

/-- The response fields `cachedRead` writes on the Koa context. The body
setter follows Koa semantics: assigning a body sets status 200 unless a status
was set explicitly first, so the valid-cache branch yields 304 on a
conditional hit and 200 otherwise, and the fresh-read branch yields 200. -/
structure CtxOut where
  status : Option Nat
  body : Option String
  etagOut : Option String
  lastModifiedOut : Option Nat
  notModified : Bool
  ctype : String
  cacheControl : String
deriving DecidableEq

/-- Everything a call to `cachedRead` produces: the returned bytes, the file
cache and `seenUrls` afterwards, the context mutations (when a context was
passed), and the files registered with the watcher. -/
structure ReadResult where
  content : String
  cache : String → Option CacheEntry
  seen : List String
  ctxOut : Option CtxOut
  watcherAdds : List String

/-- The fall-through path of `cachedRead`: read the file, compute the ETag,
store the cache entry; with a request context also set the response fields
(status 200) and register the file with the watcher when it lies outside the
project root and not under `node_modules`. `seenUrls` is not touched on this
path. -/
def cachedReadMiss (getETagF : String → String) (baseCtype root : String)
    (cache : String → Option CacheEntry) (seen : List String)
    (ctx : Option CtxIn) (file : String) (lastModified : Nat) (disk : String) : ReadResult :=
  let etag := getETagF disk
  let cache2 := fun x => if x = file then some ⟨lastModified, etag, disk⟩ else cache x
  match ctx with
  | some _ =>
    { content := disk, cache := cache2, seen := seen,
      ctxOut := some
        { status := some 200, body := some disk, etagOut := some etag,
          lastModifiedOut := some lastModified, notModified := false,
          ctype := baseCtype, cacheControl := "no-cache" },
      watcherAdds := if !strStartsWith file root && !strIncludes file "node_modules" then [file]
                     else [] }
  | none => { content := disk, cache := cache2, seen := seen, ctxOut := none, watcherAdds := [] }

/-- Embedding of `cachedRead(ctx, file)`: stat the file (a missing file makes
`fs.statSync` throw, modelled as the error case), serve the cached entry while
its recorded mtime still matches — answering 304 exactly when the request's
`If-None-Match` equals the cached ETag and the URL is already in `seenUrls`,
and adding the URL to `seenUrls` afterwards — and otherwise fall through to a
fresh read. `getETagF` is the `etag` npm package and `mimeLookup` the
`mime-types` package. -/
def cachedRead (getETagF : String → String) (mimeLookup : String → Option String)
    (fs : String → Option (Nat × String)) (root : String)
    (cache : String → Option CacheEntry) (seen : List String)
    (ctx : Option CtxIn) (file : String) : Except Unit ReadResult :=
  match fs file with
  | none => .error ()
  | some (lastModified, disk) =>
    let baseCtype := (mimeLookup (extname file)).getD "application/octet-stream"
    match cache file with
    | some c =>
      if c.lastModified = lastModified then
        match ctx with
        | some cin =>
          .ok { content := c.content, cache := cache, seen := seen.insert cin.url,
                ctxOut := some
                  { status := some (if cin.ifNoneMatch = c.etag ∧ cin.url ∈ seen then 304
                                    else 200),
                    body := some c.content, etagOut := some c.etag,
                    lastModifiedOut := some c.lastModified, notModified := true,
                    ctype := baseCtype, cacheControl := "no-cache" },
                watcherAdds := [] }
        | none =>
          .ok { content := c.content, cache := cache, seen := seen, ctxOut := none,
                watcherAdds := [] }
      else .ok (cachedReadMiss getETagF baseCtype root cache seen ctx file lastModified disk)
    | none => .ok (cachedReadMiss getETagF baseCtype root cache seen ctx file lastModified disk)

/-- The watcher `change` handler of `moduleRewritePlugin` (lines 110-116):
re-read the changed file through `cachedRead(null, filePath)` and delete the
single rewrite-cache key `publicPath + currentContent`. When the read throws
nothing is mutated. -/
def watcherChangeHandler (getETagF : String → String) (mimeLookup : String → Option String)
    (fs : String → Option (Nat × String)) (resolver : InternalResolver)
    (fsCache : String → Option CacheEntry) (rwCache : List (String × String))
    (filePath : String) : (String → Option CacheEntry) × List (String × String) :=
  let publicPath := resolver.fileToRequest filePath
  match cachedRead getETagF mimeLookup fs "" fsCache [] none filePath with
  | .ok r => (r.cache, delAssoc (publicPath ++ r.content) rwCache)
  | .error _ => (fsCache, rwCache)

/-! ## Call sequences over the import graph (for invariant I1) -/

/-- One call to `rewriteImports` with all of its inputs (the graph is
threaded separately). -/
structure RewriteCall where
  ext : RewriteExternals
  root : String
  source : String
  importer : String
  resolver : InternalResolver
  timestamp : Option String

/-- Apply one `rewriteImports` call to the graph. -/
def applyCall (c : RewriteCall) (g : Graph) : Graph :=
  (rewriteImports c.ext c.root c.source c.importer c.resolver c.timestamp g).2

/-- Apply a sequence of `rewriteImports` calls to the graph, oldest first. -/
def applyCalls : List RewriteCall → Graph → Graph
  | [], g => g
  | c :: cs, g => applyCalls cs (applyCall c g)

/-- Whether an `Except` result is a success. -/
def exceptOk {ε α : Type} : Except ε α → Bool
  | .ok _ => true
  | .error _ => false

/-- A call completes without reaching the outer `catch`. -/
def callOk (c : RewriteCall) (g : Graph) : Bool :=
  exceptOk (rewriteImportsE c.ext c.root c.source c.importer c.resolver c.timestamp g).1

/-- Every call of the sequence, replayed in order, completes without reaching
the outer `catch`. -/
def allOk : List RewriteCall → Graph → Prop
  | [], _ => True
  | c :: cs, g => callOk c g = true ∧ allOk cs (applyCall c g)

/-! ## Concrete instances used by witnesses and counterexamples -/

/-- Split a URL at its first `?` (pathname, query-with-leading-qmark); used by
the concrete resolver below. -/
def splitQ (id : String) : String × String :=
  ((id.toList.takeWhile (fun c => !(c == '?'))).asString,
   (id.toList.dropWhile (fun c => !(c == '?'))).asString)

/-- A concrete resolver instance: no aliases, absolute requests pass through
(split into pathname and query), paths are already normalized, files map to
themselves. -/
def idResolver : InternalResolver :=
  { aliasFn := fun _ => none,
    resolveRelativeRequest := fun _ id => splitQ id,
    normalizePublicPath := fun p => p,
    fileToRequest := fun f => f }

/-- Concrete externals from a given lexer: an HMR rewriter that does not edit,
no dirty files, no recorded versions, and a bare resolver that keeps the
module id. -/
def plainExt (lexf : String → Except Unit (List ImportSpecifier)) : RewriteExternals :=
  { lex := lexf, hmrRw := fun _ _ _ _ ms => ms, dirty := fun _ => none,
    latest := fun _ => none, bareResolve := fun _ id _ => id }

/-- The spec scenario source for the env injection: a bare import plus an
`import.meta.env` use. -/
def src7 : String := "import V from \"vue\"; import.meta.env;"

/-- Lexer output for `src7`, with the spans `es-module-lexer` reports: the
static specifier `vue` at 15-18 and the `import.meta` at 21-32. -/
def lex7 : String → Except Unit (List ImportSpecifier) :=
  fun s => if s = src7 then .ok [⟨15, 18, -1⟩, ⟨21, 32, -2⟩] else .ok []

/-- Externals for the `src7` scenario. -/
def ext7 : RewriteExternals := plainExt lex7

/-- A minimal source that mentions `import.meta.env`. -/
def srcC5 : String := "import.meta.env"

/-- First rewrite of `srcC5`: the env preamble is prepended. -/
def out1C5 : String := envPreamble ++ srcC5

/-- Lexer for the idempotence counterexample, with the spans `es-module-lexer`
reports on both the original source and its rewritten form (the static
`/vite/env` import of the preamble at 26-35 and the two `import.meta`
occurrences). -/
def lexC5 : String → Except Unit (List ImportSpecifier) :=
  fun s => if s = srcC5 then .ok [⟨0, 11, -2⟩]
    else if s = out1C5 then .ok [⟨26, 35, -1⟩, ⟨38, 49, -2⟩, ⟨70, 81, -2⟩]
    else .ok []

/-- Externals for the idempotence counterexample. -/
def extC5 : RewriteExternals := plainExt lexC5

/-- A lexer that reports a span reaching past the end of every source; feeding
its output to MagicString makes `overwrite` throw, exercising the outer
`catch` of `rewriteImports`. -/
def lexBad : String → Except Unit (List ImportSpecifier) := fun _ => .ok [⟨0, 99, -1⟩]

/-- A source with one static import, used by the graph witness. -/
def srcW : String := "import A from \"x\""

/-- Lexer output for `srcW`: the bare specifier `x` at 15-16. -/
def lexW : String → Except Unit (List ImportSpecifier) :=
  fun s => if s = srcW then .ok [⟨15, 16, -1⟩] else .ok []

/-- The graph witness call: rewriting `srcW` served as `/main.js`. -/
def cW : RewriteCall := ⟨plainExt lexW, "/r", srcW, "/main.js", idResolver, none⟩

/-- A second call for the same importer that throws mid-loop (the bad lexer
span makes the overwrite fail after the importee entry was already replaced by
the partially collected set): the stale importer edges are never
reconciled. -/
def cBadW : RewriteCall := ⟨plainExt lexBad, "/r", srcW, "/main.js", idResolver, none⟩

/-- Filesystem for the conditional-request counterexample: `/root/x.js` has
mtime 2 and content `hello`. -/
def fsC2 : String → Option (Nat × String) :=
  fun f => if f = "/root/x.js" then some (2, "hello") else none

/-- File cache for the conditional-request counterexample: the entry for
`/root/x.js` was recorded at the older mtime 1 with ETag `E` for the same
bytes (the file was touched without changing content). -/
def cacheC2 : String → Option CacheEntry :=
  fun f => if f = "/root/x.js" then some ⟨1, "E", "hello"⟩ else none

/-- An ETag function that assigns `E` to every content (a legal instance of
the opaque `etag` package; in the counterexample the content is unchanged, so
its real ETag would also be unchanged). -/
def etagC2 : String → String := fun _ => "E"

/-- Filesystem for the watcher counterexample: the changed file now holds
`NEW`. -/
def fsC3 : String → Option (Nat × String) :=
  fun f => if f = "/root/x.js" then some (2, "NEW") else none

/-- The response status `cachedRead` left on the context, when one was set. -/
def ctxStatus : Except Unit ReadResult → Option Nat
  | .ok rr => rr.ctxOut.bind CtxOut.status
  | .error _ => none

/-- A concrete 304 response context for the middleware frame witness. -/
def ctx304 : MwCtx := ⟨"/x.js", "/x.js", 304, some "body", true, false, none, none⟩

/-- Concrete middleware externals for the frame witness. -/
def mexW : MwExternals := ⟨plainExt (fun _ => .ok []), fun _ => false, fun s => s⟩

/-- Empty middleware state for the frame witness. -/
def stW : MwState := ⟨[], Graph.empty⟩

/-! ## Characterizations used by the graph-invariant proof -/

/-- What the importer map looks like after the loop added `importer` to the
entry of every collected importee: pointwise, entries of collected importees
gained `importer`, all other entries are untouched. -/
def derivedImap (M : String → Option (Finset String)) (importer : String) (curr : Finset String) :
    String → Option (Finset String) :=
  fun x => if x ∈ curr then some (insert importer ((M x).getD ∅)) else M x

/-- An import span whose specifier the resolver maps to itself (or which is an
external URL): rewriting it changes nothing. -/
def specFixed (ext : RewriteExternals) (root importer : String) (resolver : InternalResolver)
    (timestamp : Option String) (srcL : List Char) (sp : ImportSpecifier) : Prop :=
  specStatic srcL sp = true →
    isExternalUrl (specIdStr srcL sp) = true ∨
    resolveImport ext root importer (specIdStr srcL sp) resolver timestamp = specIdStr srcL sp

/-! ## Theorems -/

/-- Appending character lists and converting to strings commute. -/
lemma asStringAppend (a b : List Char) : (a ++ b).asString = a.asString ++ b.asString := rfl

/-- Converting a string to characters and back is the identity. -/
lemma asStringToList (s : String) : s.toList.asString = s := rfl

/-- The empty string is a left identity of string append. -/
lemma strEmptyAppendLeft (s : String) : "" ++ s = s := rfl

/-- The graph part of `rewriteImports` is whatever the try-body produced,
whether or not the body threw. -/
lemma rewriteImports_snd (ext : RewriteExternals) (root source importer : String)
    (resolver : InternalResolver) (timestamp : Option String) (g : Graph) :
    (rewriteImports ext root source importer resolver timestamp g).2
      = (rewriteImportsE ext root source importer resolver timestamp g).2 := by
  unfold rewriteImports
  rcases h : rewriteImportsE ext root source importer resolver timestamp g with ⟨r, g2⟩
  cases r <;> rfl

/-- C4: `rewriteImports` never throws: whenever the body of its `try` block
fails with an internal exception, the outer `catch` logs the error and the
function returns the original source string unchanged. -/
theorem c4_rewrite_never_throws (ext : RewriteExternals) (root source importer : String)
    (resolver : InternalResolver) (timestamp : Option String) (g : Graph)
    (herr : exceptOk (rewriteImportsE ext root source importer resolver timestamp g).1 = false) :
    (rewriteImports ext root source importer resolver timestamp g).1 = source := by
  unfold rewriteImports
  rcases h : rewriteImportsE ext root source importer resolver timestamp g with ⟨r, g2⟩
  cases r with
  | ok s =>
    rw [h] at herr
    simp [exceptOk] at herr
  | error e => rfl

/-- Witness for C4: a lexer span past the end of the source makes the
MagicString overwrite throw inside the try-body, and the original source comes
back unchanged. -/
theorem c4_witness :
    exceptOk (rewriteImportsE (plainExt lexBad) "/r" "import x from \"y\"" "/m.js" idResolver
        none Graph.empty).1 = false ∧
    (rewriteImports (plainExt lexBad) "/r" "import x from \"y\"" "/m.js" idResolver none
        Graph.empty).1 = "import x from \"y\"" :=
  ⟨by decide,
   c4_rewrite_never_throws (plainExt lexBad) "/r" "import x from \"y\"" "/m.js" idResolver none
     Graph.empty (by decide)⟩

/-- C6 counterexample: on a source the lexer fails to parse but which contains
`import.meta.env`, `rewriteImports` does not return the source unchanged — the
env preamble is still prepended. -/
theorem c6_counterexample :
    (rewriteImports (plainExt (fun _ => .error ())) "/r" "import.meta.env" "/m.js" idResolver
        none Graph.empty).1 ≠ "import.meta.env" := by decide

/-- C6 (amended): when the lexer fails to parse the source, a warning is
logged and — provided the source mentions neither `import.meta.hot` nor
`import.meta.env` — the source is returned unchanged with the import graph
untouched. -/
theorem c6_lexfail_returns_source (ext : RewriteExternals) (root source importer : String)
    (resolver : InternalResolver) (timestamp : Option String) (g : Graph)
    (hlex : ext.lex source = .error ())
    (hhot : strIncludes source "import.meta.hot" = false)
    (henv : strIncludes source "import.meta.env" = false) :
    rewriteImports ext root source importer resolver timestamp g = (source, g) := by
  have hs : shouldRewrite ext source = false := by
    simp [shouldRewrite, lexResult, hlex, hhot, henv]
  unfold rewriteImports rewriteImportsE
  simp [hs]

/-- Witness for C6 (amended) at a plain source with a failing lexer. -/
theorem c6_witness :
    rewriteImports (plainExt (fun _ => .error ())) "/r" "const a = 1" "/m.js" idResolver none
        Graph.empty = ("const a = 1", Graph.empty) :=
  c6_lexfail_returns_source (plainExt (fun _ => .error ())) "/r" "const a = 1" "/m.js"
    idResolver none Graph.empty rfl (by decide) (by decide)

/-- C10: a source that parses to zero import specifiers and mentions neither
`import.meta.hot` nor `import.meta.env` is returned unchanged and the import
graph is left exactly as it was — no (empty) importee entry is created for the
importer. -/
theorem c10_no_imports_graph_untouched (ext : RewriteExternals) (root source importer : String)
    (resolver : InternalResolver) (timestamp : Option String) (g : Graph)
    (hlex : ext.lex source = .ok [])
    (hhot : strIncludes source "import.meta.hot" = false)
    (henv : strIncludes source "import.meta.env" = false) :
    rewriteImports ext root source importer resolver timestamp g = (source, g) := by
  have hs : shouldRewrite ext source = false := by
    simp [shouldRewrite, lexResult, hlex, hhot, henv]
  unfold rewriteImports rewriteImportsE
  simp [hs]

/-- Witness for C10 at a source with no imports. -/
theorem c10_witness :
    rewriteImports (plainExt (fun _ => .ok [])) "/r" "const a = 1" "/m.js" idResolver none
        Graph.empty = ("const a = 1", Graph.empty) :=
  c10_no_imports_graph_untouched (plainExt (fun _ => .ok [])) "/r" "const a = 1" "/m.js"
    idResolver none Graph.empty rfl (by decide) (by decide)

/-- C3: at the failing input the watcher handler re-reads the changed file and
derives the eviction key from the file's new content, so the rewrite-cache
entry keyed by the public path plus the previous content — a key beginning
with the public path — survives the change event instead of being evicted. -/
theorem c3_stale_rewrite_cache_entry :
    (watcherChangeHandler (fun s => s) (fun _ => none) fsC3 idResolver (fun _ => none)
        [("/root/x.jsOLD", "REWRITTEN")] "/root/x.js").2 = [("/root/x.jsOLD", "REWRITTEN")] ∧
    strStartsWith "/root/x.jsOLD" "/root/x.js" = true := by decide

/-- C2 counterexample: the file was touched (mtime 1 became 2) with identical
bytes, the request's If-None-Match equals the cached entry's ETag and the URL
was already seen, yet `cachedRead` answers 200 — the claimed iff would force
304 here. -/
theorem c2_counterexample :
    ctxStatus (cachedRead etagC2 (fun _ => none) fsC2 "/root" cacheC2 ["/x.js"]
        (some ⟨"/x.js", "E"⟩) "/root/x.js") = some 200 ∧
    (cacheC2 "/root/x.js").map CacheEntry.etag = some "E" ∧
    "/x.js" ∈ (["/x.js"] : List String) := by decide

/-- C5 counterexample: the source `import.meta.env` has no import specifiers
at all (vacuously, all of them are public paths), yet rewriting its rewrite
output prepends the env preamble a second time, so
`rewrite (rewrite src) ≠ rewrite src`. -/
theorem c5_counterexample :
    (rewriteImports extC5 "/r"
        (rewriteImports extC5 "/r" srcC5 "/main.js" idResolver none Graph.empty).1
        "/main.js" idResolver none
        (rewriteImports extC5 "/r" srcC5 "/main.js" idResolver none Graph.empty).2).1
      ≠ (rewriteImports extC5 "/r" srcC5 "/main.js" idResolver none Graph.empty).1 := by decide

/-- C7 counterexample: at the spec's own scenario input the rewriter prepends
`import __VITE_ENV__ from "/vite/env"; import.meta.env = __VITE_ENV__; ` (and
keeps the `import.meta.env;` statement), not the claimed
`import __ENV__ ...` text. -/
theorem c7_counterexample :
    (rewriteImports ext7 "/r" src7 "/main.js" idResolver none Graph.empty).1 =
      "import __VITE_ENV__ from \"/vite/env\"; import.meta.env = __VITE_ENV__; " ++
        "import V from \"/@modules/vue\"; import.meta.env;" ∧
    (rewriteImports ext7 "/r" src7 "/main.js" idResolver none Graph.empty).1 ≠
      "import __ENV__ from \"/vite/env\"; import.meta.env = __ENV__; " ++
        "import V from \"/@modules/vue\";" := by decide

/-- C9: when the downstream middlewares finished with a 304 response, the
rewrite middleware returns immediately: the context (body and headers), the
rewrite cache and the import graph are all left unchanged. -/
theorem c9_304_response_untouched (mex : MwExternals) (root : String)
    (resolver : InternalResolver) (ctx : MwCtx) (st : MwState) (h304 : ctx.status = 304) :
    moduleRewriteMiddleware mex root resolver ctx st = (ctx, st) := by
  unfold moduleRewriteMiddleware
  rw [if_pos h304]

/-- Witness for C9 at a concrete 304 response. -/
theorem c9_witness :
    moduleRewriteMiddleware mexW "/r" idResolver ctx304 stW = (ctx304, stW) :=
  c9_304_response_untouched mexW "/r" idResolver ctx304 stW rfl

/-- C8: for a non-bare specifier (after alias application) resolved with no
timestamp, `resolveImport` appends `?import` to the normalized pathname
exactly when the request carried no query, the pathname has a file extension,
and that extension is not a JS source extension per `jsSrcRE`; otherwise the
original query is kept as is. -/
theorem c8_nonjs_import_marker (ext : RewriteExternals) (root importer id : String)
    (resolver : InternalResolver)
    (hbare : bareImportRE ((resolver.aliasFn id).getD id) = false) :
    let pr := resolver.resolveRelativeRequest importer ((resolver.aliasFn id).getD id)
    let pn := resolver.normalizePublicPath pr.1
    ((pr.2 = "" ∧ extname pn ≠ "" ∧ jsSrcRE pn = false) →
        resolveImport ext root importer id resolver none = pn ++ "?import") ∧
    (¬ (pr.2 = "" ∧ extname pn ≠ "" ∧ jsSrcRE pn = false) →
        resolveImport ext root importer id resolver none = pn ++ pr.2) := by
  intro pr pn
  have base : resolveImport ext root importer id resolver none =
      pn ++ (if pr.2 == "" && !(extname pn == "") && !jsSrcRE pn then pr.2 ++ "?import"
             else pr.2) := by
    simp only [resolveImport, jsTruthy, hbare]
    rfl
  have condIff : (pr.2 == "" && !(extname pn == "") && !jsSrcRE pn) = true ↔
      (pr.2 = "" ∧ extname pn ≠ "" ∧ jsSrcRE pn = false) := by
    simp [Bool.and_eq_true, beq_iff_eq, Bool.not_eq_true', and_assoc]
  constructor
  · intro hc
    have hcb := condIff.mpr hc
    rw [base, hcb]
    simp [hc.1]
  · intro hc
    have hcb : (pr.2 == "" && !(extname pn == "") && !jsSrcRE pn) = false := by
      cases hcc : (pr.2 == "" && !(extname pn == "") && !jsSrcRE pn) with
      | true => exact absurd (condIff.mp hcc) hc
      | false => rfl
    rw [base, hcb]
    simp

/-- Witness for C8: a relative PNG import receives the `?import` marker. -/
theorem c8_witness :
    bareImportRE "./logo.png" = false ∧
    resolveImport (plainExt (fun _ => .ok [])) "/r" "/main.js" "./logo.png" idResolver none
      = "./logo.png?import" := by
  refine ⟨by decide, ?_⟩
  have h := (c8_nonjs_import_marker (plainExt (fun _ => .ok [])) "/r" "/main.js" "./logo.png"
    idResolver (by decide)).1 ⟨by decide, by decide, by decide⟩
  exact h.trans (by decide)

/-- A successful MagicString overwrite only records an edit: intro and source
are untouched. -/
lemma overwrite_keeps_intro_source (ms : MagicStringState) (s e : Nat) (c : List Char)
    (ms2 : MagicStringState) (h : ms.overwrite s e c = .ok ms2) :
    ms2.intro = ms.intro ∧ ms2.source = ms.source := by
  unfold MagicStringState.overwrite at h
  split at h
  · cases h
  · split at h
    · cases h
    · split at h
      · cases h
      · cases h
        exact ⟨rfl, rfl⟩

/-- `trackImportee` only touches the collected set and the importer map. -/
lemma trackImportee_keeps (importer importee : String) (st : LoopState) :
    (trackImportee importer importee st).ms = st.ms ∧
    (trackImportee importer importee st).hasReplaced = st.hasReplaced := by
  unfold trackImportee
  split <;> exact ⟨rfl, rfl⟩

/-- One loop iteration over a fixed specifier (external, or resolving to
itself) succeeds and changes neither the MagicString nor `hasReplaced`. -/
lemma rewriteStep_fixed (ext : RewriteExternals) (root importer : String)
    (resolver : InternalResolver) (timestamp : Option String) (srcL : List Char)
    (st : LoopState) (sp : ImportSpecifier)
    (hsp : specFixed ext root importer resolver timestamp srcL sp) :
    (rewriteStep ext root importer resolver timestamp srcL st sp).2 = true ∧
    (rewriteStep ext root importer resolver timestamp srcL st sp).1.ms = st.ms ∧
    (rewriteStep ext root importer resolver timestamp srcL st sp).1.hasReplaced
      = st.hasReplaced := by
  simp only [rewriteStep]
  by_cases hstat : specStatic srcL sp = true
  · simp only [hstat, if_true]
    by_cases hext : isExternalUrl (specIdStr srcL sp) = true
    · simp [hext]
    · have hextF : isExternalUrl (specIdStr srcL sp) = false := by
        cases hcc : isExternalUrl (specIdStr srcL sp)
        · rfl
        · exact absurd hcc hext
      have hres : resolveImport ext root importer (specIdStr srcL sp) resolver timestamp
          = specIdStr srcL sp := by
        rcases hsp hstat with h | h
        · exact absurd h hext
        · exact h
      simp only [hextF, Bool.false_eq_true, if_false, hres, if_pos rfl]
      obtain ⟨h1, h2⟩ := trackImportee_keeps importer
        (cleanUrl (specIdStr srcL sp)) st
      exact ⟨rfl, h1, h2⟩
  · simp [hstat]

/-- A loop over fixed specifiers succeeds and leaves `hasReplaced` as it
was. -/
lemma rewriteLoop_fixed (ext : RewriteExternals) (root importer : String)
    (resolver : InternalResolver) (timestamp : Option String) (srcL : List Char) :
    ∀ (specs : List ImportSpecifier) (st : LoopState),
      (∀ sp ∈ specs, specFixed ext root importer resolver timestamp srcL sp) →
      (rewriteLoop ext root importer resolver timestamp srcL specs st).2 = true ∧
      (rewriteLoop ext root importer resolver timestamp srcL specs st).1.hasReplaced
        = st.hasReplaced := by
  intro specs
  induction specs with
  | nil => intro st _; exact ⟨rfl, rfl⟩
  | cons sp rest ih =>
    intro st h
    obtain ⟨hok, _, hrep⟩ := rewriteStep_fixed ext root importer resolver timestamp srcL st sp
      (h sp (List.mem_cons_self sp rest))
    unfold rewriteLoop
    rcases hstep : rewriteStep ext root importer resolver timestamp srcL st sp with ⟨st2, ok⟩
    rw [hstep] at hok hrep
    simp only at hok hrep
    cases ok with
    | true =>
      have hr := ih st2 (fun x hx => h x (List.mem_cons_of_mem sp hx))
      exact ⟨hr.1, hr.2.trans hrep⟩
    | false => exact absurd hok (by simp)

/-- Core of the amended C5: when every specifier of the source is fixed and
the source mentions neither `import.meta.hot` nor `import.meta.env`,
`rewriteImports` returns the source text unchanged, whatever the graph. -/
lemma rewrite_fixed_source (ext : RewriteExternals) (root source importer : String)
    (resolver : InternalResolver) (timestamp : Option String)
    (hfix : ∀ sp ∈ lexResult ext source,
      specFixed ext root importer resolver timestamp source.toList sp)
    (hhot : strIncludes source "import.meta.hot" = false)
    (henv : strIncludes source "import.meta.env" = false) :
    ∀ g : Graph, (rewriteImports ext root source importer resolver timestamp g).1 = source := by
  intro g
  by_cases hs : shouldRewrite ext source = true
  · have hloop := rewriteLoop_fixed ext root importer resolver timestamp source.toList
      (lexResult ext source) ⟨MagicStringState.mk0 source, ∅, g.importerMap, false⟩ hfix
    unfold rewriteImports rewriteImportsE
    simp only [hs, if_true, hhot, henv, loopRun] at hloop ⊢
    rw [hloop.1]
    simp only [String.toList] at hloop
    simp [hloop.2]
  · have hsf : shouldRewrite ext source = false := by
      cases hcc : shouldRewrite ext source
      · rfl
      · exact absurd hcc hs
    unfold rewriteImports rewriteImportsE
    simp [hsf]

/-- C5 (amended): once every import specifier of the source is already a
public path — `resolveImport` maps each one to itself (or it is an external
URL) — and the source mentions neither `import.meta.hot` nor
`import.meta.env`, rewriting is idempotent: rewriting the output of a rewrite
(with the graph the first rewrite produced) returns that output unchanged. -/
theorem c5_rewrite_idempotent (ext : RewriteExternals) (root source importer : String)
    (resolver : InternalResolver) (timestamp : Option String)
    (hfix : ∀ sp ∈ lexResult ext source,
      specFixed ext root importer resolver timestamp source.toList sp)
    (hhot : strIncludes source "import.meta.hot" = false)
    (henv : strIncludes source "import.meta.env" = false) :
    ∀ g : Graph,
      (rewriteImports ext root
          (rewriteImports ext root source importer resolver timestamp g).1
          importer resolver timestamp
          (rewriteImports ext root source importer resolver timestamp g).2).1
        = (rewriteImports ext root source importer resolver timestamp g).1 := by
  intro g
  have key := rewrite_fixed_source ext root source importer resolver timestamp hfix hhot henv
  rw [key g]
  exact key _

/-- Witness for C5 (amended): a source whose only import is already a
`/@modules/` public path rewrites to itself, twice. -/
theorem c5_witness :
    (rewriteImports (plainExt (fun s => if s = "import V from \"/@modules/vue\";"
          then .ok [⟨15, 28, -1⟩] else .ok []))
        "/r"
        (rewriteImports (plainExt (fun s => if s = "import V from \"/@modules/vue\";"
            then .ok [⟨15, 28, -1⟩] else .ok []))
          "/r" "import V from \"/@modules/vue\";" "/main.js" idResolver none Graph.empty).1
        "/main.js" idResolver none
        (rewriteImports (plainExt (fun s => if s = "import V from \"/@modules/vue\";"
            then .ok [⟨15, 28, -1⟩] else .ok []))
          "/r" "import V from \"/@modules/vue\";" "/main.js" idResolver none Graph.empty).2).1
      = (rewriteImports (plainExt (fun s => if s = "import V from \"/@modules/vue\";"
            then .ok [⟨15, 28, -1⟩] else .ok []))
          "/r" "import V from \"/@modules/vue\";" "/main.js" idResolver none Graph.empty).1 :=
  c5_rewrite_idempotent _ "/r" "import V from \"/@modules/vue\";" "/main.js" idResolver none
    (by simp only [specFixed]; decide) (by decide) (by decide) Graph.empty

/-- One loop iteration never touches the MagicString intro and never changes
the underlying source; only edits are recorded. -/
lemma rewriteStep_keeps_intro_source (ext : RewriteExternals) (root importer : String)
    (resolver : InternalResolver) (timestamp : Option String) (srcL : List Char)
    (st : LoopState) (sp : ImportSpecifier) :
    (rewriteStep ext root importer resolver timestamp srcL st sp).1.ms.intro = st.ms.intro ∧
    (rewriteStep ext root importer resolver timestamp srcL st sp).1.ms.source = st.ms.source := by
  simp only [rewriteStep]
  by_cases hstat : specStatic srcL sp = true
  · simp only [hstat, if_true]
    by_cases hext : isExternalUrl (specIdStr srcL sp) = true
    · simp [hext]
    · have hextF : isExternalUrl (specIdStr srcL sp) = false := by
        cases hcc : isExternalUrl (specIdStr srcL sp)
        · rfl
        · exact absurd hcc hext
      simp only [hextF, Bool.false_eq_true, if_false]
      by_cases hres : resolveImport ext root importer (specIdStr srcL sp) resolver timestamp
          = specIdStr srcL sp
      · obtain ⟨h1, _⟩ := trackImportee_keeps importer (cleanUrl (specIdStr srcL sp)) st
        simp [hres, h1]
      · rw [if_neg hres]
        rcases hov : st.ms.overwrite sp.s sp.e (overwriteContent srcL sp
            (resolveImport ext root importer (specIdStr srcL sp) resolver timestamp))
          with e | ms2
        · exact ⟨rfl, rfl⟩
        · obtain ⟨hi, hsrc⟩ := overwrite_keeps_intro_source _ _ _ _ _ hov
          obtain ⟨h1, _⟩ := trackImportee_keeps importer
            (cleanUrl (resolveImport ext root importer (specIdStr srcL sp) resolver timestamp))
            { st with ms := ms2, hasReplaced := true }
          constructor
          · simpa [h1] using hi
          · simpa [h1] using hsrc
  · simp [hstat]

/-- The import loop never touches the MagicString intro and never changes the
underlying source. -/
lemma rewriteLoop_keeps_intro_source (ext : RewriteExternals) (root importer : String)
    (resolver : InternalResolver) (timestamp : Option String) (srcL : List Char) :
    ∀ (specs : List ImportSpecifier) (st : LoopState),
      (rewriteLoop ext root importer resolver timestamp srcL specs st).1.ms.intro
        = st.ms.intro ∧
      (rewriteLoop ext root importer resolver timestamp srcL specs st).1.ms.source
        = st.ms.source := by
  intro specs
  induction specs with
  | nil => intro st; exact ⟨rfl, rfl⟩
  | cons sp rest ih =>
    intro st
    obtain ⟨h1, h2⟩ := rewriteStep_keeps_intro_source ext root importer resolver timestamp srcL
      st sp
    unfold rewriteLoop
    rcases hstep : rewriteStep ext root importer resolver timestamp srcL st sp with ⟨st2, ok⟩
    rw [hstep] at h1 h2
    simp only at h1 h2
    cases ok with
    | true =>
      have hr := ih st2
      exact ⟨hr.1.trans h1, hr.2.trans h2⟩
    | false => exact ⟨h1, h2⟩

/-- C7 (amended): when the source mentions `import.meta.env` (and no
`import.meta.hot`, whose injected code is external to this module) and the
rewrite body succeeds, the output is exactly the text
`import __VITE_ENV__ from "<envPublicPath>"; import.meta.env = __VITE_ENV__; `
prepended to the edited source. -/
theorem c7_env_preamble (ext : RewriteExternals) (root source importer : String)
    (resolver : InternalResolver) (timestamp : Option String) (g : Graph)
    (henv : strIncludes source "import.meta.env" = true)
    (hhot : strIncludes source "import.meta.hot" = false)
    (hok : (loopRun ext root source importer resolver timestamp g.importerMap).2 = true) :
    (rewriteImports ext root source importer resolver timestamp g).1 =
      envPreamble ++
        (applyEdits 0 source.toList
          (sortEdits
            (loopRun ext root source importer resolver timestamp
              g.importerMap).1.ms.edits)).asString := by
  have hs : shouldRewrite ext source = true := by
    simp [shouldRewrite, henv]
  have hkeep := rewriteLoop_keeps_intro_source ext root importer resolver timestamp
    source.toList (lexResult ext source)
    ⟨MagicStringState.mk0 source, ∅, g.importerMap, false⟩
  unfold rewriteImports rewriteImportsE
  simp only [loopRun, String.toList] at hkeep hok ⊢
  simp only [hs, if_true, hhot, henv, Bool.false_eq_true, if_false, hok, Bool.or_true]
  simp only [MagicStringState.renderStr, MagicStringState.render, MagicStringState.prepend,
    MagicStringState.mk0] at hkeep ⊢
  rw [hkeep.1, hkeep.2]
  simp only [asStringAppend, List.append_nil]
  rfl

/-- Witness for C7 (amended) at the spec scenario input. -/
theorem c7_witness :
    strIncludes src7 "import.meta.env" = true ∧
    (rewriteImports ext7 "/r" src7 "/main.js" idResolver none Graph.empty).1 =
      envPreamble ++
        (applyEdits 0 src7.toList
          (sortEdits (loopRun ext7 "/r" src7 "/main.js" idResolver none
              Graph.empty.importerMap).1.ms.edits)).asString :=
  ⟨by decide,
   c7_env_preamble ext7 "/r" src7 "/main.js" idResolver none Graph.empty (by decide)
     (by decide) (by decide)⟩

/-- C2 (amended): with a request context and an existing file, `cachedRead`
answers 304 exactly when the file cache already holds an entry for the file
whose recorded mtime equals the file's current mtime, the request's
If-None-Match equals that entry's ETag, and the URL is in `seenUrls`;
in every other case it answers 200. The body is always the returned bytes
(Koa itself suppresses the body on the wire for a 304), and a 304 is never
produced before the URL has been seen in the current process. -/
theorem c2_conditional_304 (getETagF : String → String) (mimeLookup : String → Option String)
    (fs : String → Option (Nat × String)) (root : String)
    (cache : String → Option CacheEntry) (seen : List String) (cin : CtxIn) (file : String)
    (m : Nat) (disk : String) (r : ReadResult)
    (hfs : fs file = some (m, disk))
    (hr : cachedRead getETagF mimeLookup fs root cache seen (some cin) file = .ok r) :
    ∃ o, r.ctxOut = some o ∧
      ((o.status = some 304) ↔
        (∃ e, cache file = some e ∧ e.lastModified = m ∧ cin.ifNoneMatch = e.etag ∧
          cin.url ∈ seen)) ∧
      (o.status = some 304 ∨ o.status = some 200) ∧
      o.body = some r.content ∧
      (o.status = some 304 → cin.url ∈ seen) := by
  unfold cachedRead at hr
  rw [hfs] at hr
  cases hc : cache file with
  | none =>
    rw [hc] at hr
    simp only [cachedReadMiss] at hr
    cases hr
    refine ⟨_, rfl, ?_, ?_, ?_, ?_⟩
    · constructor
      · intro hs
        simp at hs
      · rintro ⟨e, he, _⟩
        simp at he
    · right; rfl
    · rfl
    · intro hs
      simp at hs
  | some c =>
    rw [hc] at hr
    simp only [] at hr
    by_cases hm : c.lastModified = m
    · rw [if_pos hm] at hr
      cases hr
      by_cases hcond : cin.ifNoneMatch = c.etag ∧ cin.url ∈ seen
      · refine ⟨_, rfl, ?_, ?_, ?_, ?_⟩
        · constructor
          · intro _
            exact ⟨c, rfl, hm, hcond.1, hcond.2⟩
          · intro _
            simp [hcond]
        · left; simp [hcond]
        · rfl
        · intro _
          exact hcond.2
      · refine ⟨_, rfl, ?_, ?_, ?_, ?_⟩
        · constructor
          · intro hs
            simp [hcond] at hs
          · rintro ⟨e, he, hlm, hinm, hurl⟩
            cases he
            exact absurd ⟨hinm, hurl⟩ hcond
        · right; simp [hcond]
        · rfl
        · intro hs
          simp [hcond] at hs
    · rw [if_neg hm] at hr
      simp only [cachedReadMiss] at hr
      cases hr
      refine ⟨_, rfl, ?_, ?_, ?_, ?_⟩
      · constructor
        · intro hs
          simp at hs
        · rintro ⟨e, he, hlm, _⟩
          cases he
          exact absurd hlm hm
      · right; rfl
      · rfl
      · intro hs
        simp at hs

/-- Witness for C2 (amended): a fresh read of an uncached file answers 200
with the file bytes. -/
theorem c2_witness :
    ∃ r, cachedRead etagC2 (fun _ => none) fsC2 "/root" (fun _ => none) [] (some ⟨"/x.js", ""⟩)
        "/root/x.js" = .ok r ∧
      ∃ o, r.ctxOut = some o ∧
        ((o.status = some 304) ↔
          (∃ e, (fun _ => (none : Option CacheEntry)) "/root/x.js" = some e ∧
            e.lastModified = 2 ∧ ("" : String) = e.etag ∧ "/x.js" ∈ ([] : List String))) ∧
        (o.status = some 304 ∨ o.status = some 200) ∧
        o.body = some r.content ∧
        (o.status = some 304 → "/x.js" ∈ ([] : List String)) := by
  refine ⟨_, rfl, ?_⟩
  exact c2_conditional_304 etagC2 (fun _ => none) fsC2 "/root" (fun _ => none) [] ⟨"/x.js", ""⟩
    "/root/x.js" 2 "hello" _ (by decide) rfl

/-- Membership in an entry of the derived importer map: the importer was
added exactly on the entries of collected importees. -/
lemma mem_derived (M : String → Option (Finset String)) (importer : String)
    (curr : Finset String) (a b : String) :
    (b ∈ (derivedImap M importer curr a).getD ∅) ↔
      ((a ∈ curr ∧ b = importer) ∨ b ∈ ((M a).getD ∅)) := by
  unfold derivedImap
  by_cases ha : a ∈ curr
  · simp only [ha, if_true, Option.getD_some, Finset.mem_insert, true_and]
  · simp [ha]

/-- `trackImportee` preserves the derived-map characterization of the importer
map being built. -/
lemma trackImportee_imap (M : String → Option (Finset String)) (importer importee : String)
    (st : LoopState) (h : st.imap = derivedImap M importer st.curr) :
    (trackImportee importer importee st).imap
      = derivedImap M importer (trackImportee importer importee st).curr := by
  unfold trackImportee
  split
  · funext x
    rw [h]
    simp only [updateFn, derivedImap]
    by_cases hx : x = importee
    · subst hx
      simp only [if_pos rfl, Finset.mem_insert_self, if_true]
      by_cases hcur : x ∈ st.curr
      · simp [hcur, Finset.insert_idem]
      · simp [hcur]
    · simp only [if_neg hx]
      by_cases hcur : x ∈ st.curr
      · simp [Finset.mem_insert, hx, hcur]
      · simp [Finset.mem_insert, hx, hcur]
  · exact h

/-- One loop iteration preserves the derived-map characterization. -/
lemma rewriteStep_imap (M : String → Option (Finset String)) (ext : RewriteExternals)
    (root importer : String) (resolver : InternalResolver) (timestamp : Option String)
    (srcL : List Char) (st : LoopState) (sp : ImportSpecifier)
    (h : st.imap = derivedImap M importer st.curr) :
    (rewriteStep ext root importer resolver timestamp srcL st sp).1.imap
      = derivedImap M importer
          (rewriteStep ext root importer resolver timestamp srcL st sp).1.curr := by
  simp only [rewriteStep]
  by_cases hstat : specStatic srcL sp = true
  · simp only [hstat, if_true]
    by_cases hext : isExternalUrl (specIdStr srcL sp) = true
    · simpa [hext] using h
    · have hextF : isExternalUrl (specIdStr srcL sp) = false := by
        cases hcc : isExternalUrl (specIdStr srcL sp)
        · rfl
        · exact absurd hcc hext
      simp only [hextF, Bool.false_eq_true, if_false]
      by_cases hres : resolveImport ext root importer (specIdStr srcL sp) resolver timestamp
          = specIdStr srcL sp
      · simp only [hres, eq_self_iff_true, if_true]
        exact trackImportee_imap M importer _ st h
      · rw [if_neg hres]
        rcases hov : st.ms.overwrite sp.s sp.e (overwriteContent srcL sp
            (resolveImport ext root importer (specIdStr srcL sp) resolver timestamp))
          with e | ms2
        · exact h
        · exact trackImportee_imap M importer _ { st with ms := ms2, hasReplaced := true } h
  · simpa [hstat] using h

/-- The import loop preserves the derived-map characterization, even when it
stops at a throwing iteration. -/
lemma rewriteLoop_imap (M : String → Option (Finset String)) (ext : RewriteExternals)
    (root importer : String) (resolver : InternalResolver) (timestamp : Option String)
    (srcL : List Char) :
    ∀ (specs : List ImportSpecifier) (st : LoopState),
      st.imap = derivedImap M importer st.curr →
      (rewriteLoop ext root importer resolver timestamp srcL specs st).1.imap
        = derivedImap M importer
            (rewriteLoop ext root importer resolver timestamp srcL specs st).1.curr := by
  intro specs
  induction specs with
  | nil => intro st h; exact h
  | cons sp rest ih =>
    intro st h
    have hstep := rewriteStep_imap M ext root importer resolver timestamp srcL st sp h
    unfold rewriteLoop
    rcases hs2 : rewriteStep ext root importer resolver timestamp srcL st sp with ⟨st2, ok⟩
    rw [hs2] at hstep
    cases ok with
    | true => exact ih st2 hstep
    | false => exact hstep

/-- Replacing the importee entry of an importer with a collected set,
adding the importer to the importer-map entries of the collected importees,
and then removing it from the entries of the stale previous importees,
preserves the bidirectional graph invariant. -/
lemma graphInv_update (g : Graph) (hInv : GraphInv g) (importer : String)
    (curr : Finset String) :
    GraphInv ⟨updateFn g.importeeMap importer (some curr),
              reconcileImporters importer (g.importeeMap importer) curr
                (derivedImap g.importerMap importer curr)⟩ := by
  intro a b
  have hbase := hInv a b
  simp only [memImporters, memImportees] at hbase ⊢
  simp only [updateFn]
  cases hprev : g.importeeMap importer with
  | none =>
    simp only [reconcileImporters]
    rw [mem_derived]
    by_cases hb : b = importer
    · subst hb
      simp only [if_pos rfl, Option.getD_some]
      constructor
      · rintro (⟨hc, _⟩ | hM)
        · exact hc
        · exfalso
          have hEi := hbase.mp hM
          rw [hprev] at hEi
          simp at hEi
      · intro hc
        exact Or.inl ⟨hc, by trivial⟩
    · simp only [if_neg hb]
      constructor
      · rintro (⟨_, hbi⟩ | hM)
        · exact absurd hbi hb
        · exact hbase.mp hM
      · intro hE
        exact Or.inr (hbase.mpr hE)
  | some p =>
    simp only [reconcileImporters]
    by_cases hap : a ∈ p ∧ a ∉ curr
    · rw [if_pos hap]
      have hda : derivedImap g.importerMap importer curr a = g.importerMap a := by
        unfold derivedImap
        rw [if_neg hap.2]
      rw [hda]
      by_cases hb : b = importer
      · subst hb
        simp only [if_pos rfl, Option.getD_some]
        constructor
        · intro hmem
          exfalso
          cases hM : g.importerMap a with
          | none => rw [hM] at hmem; simp at hmem
          | some s =>
            rw [hM] at hmem
            simp at hmem
        · intro hc
          exact absurd hc hap.2
      · simp only [if_neg hb]
        constructor
        · intro hmem
          apply hbase.mp
          cases hM : g.importerMap a with
          | none => rw [hM] at hmem; simp at hmem
          | some s =>
            rw [hM] at hmem
            simp [Finset.mem_erase] at hmem
            simpa using hmem.2
        · intro hE
          have hM := hbase.mpr hE
          cases hMa : g.importerMap a with
          | none => rw [hMa] at hM; simp at hM
          | some s =>
            rw [hMa] at hM
            simp only [Option.getD_some] at hM
            simp [Finset.mem_erase]
            exact ⟨hb, hM⟩
    · rw [if_neg hap]
      rw [mem_derived]
      by_cases hb : b = importer
      · subst hb
        simp only [if_pos rfl, Option.getD_some]
        constructor
        · rintro (⟨hc, _⟩ | hM)
          · exact hc
          · have hEi := hbase.mp hM
            rw [hprev] at hEi
            simp only [Option.getD_some] at hEi
            rcases not_and_or.mp hap with h1 | h2
            · exact absurd hEi h1
            · exact not_not.mp h2
        · intro hc
          exact Or.inl ⟨hc, by trivial⟩
      · simp only [if_neg hb]
        constructor
        · rintro (⟨_, hbi⟩ | hM)
          · exact absurd hbi hb
          · exact hbase.mp hM
        · intro hE
          exact Or.inr (hbase.mpr hE)

/-- The derived importer map over an empty collected set is the original
map. -/
lemma derivedImap_empty (M : String → Option (Finset String)) (importer : String) :
    derivedImap M importer ∅ = M := by
  funext x
  simp [derivedImap]

/-- The graph a `rewriteImports` call leaves behind: unchanged when the guard
is not taken, the update-and-reconcile shape when the body succeeded, and
otherwise the call threw. -/
lemma rewriteImportsE_graph (ext : RewriteExternals) (root source importer : String)
    (resolver : InternalResolver) (timestamp : Option String) (g : Graph) :
    (rewriteImportsE ext root source importer resolver timestamp g).2 = g ∨
    exceptOk (rewriteImportsE ext root source importer resolver timestamp g).1 = false ∨
    ∃ curr : Finset String,
      (rewriteImportsE ext root source importer resolver timestamp g).2 =
        ⟨updateFn g.importeeMap importer (some curr),
         reconcileImporters importer (g.importeeMap importer) curr
           (derivedImap g.importerMap importer curr)⟩ := by
  by_cases hs : shouldRewrite ext source = true
  · have himap := rewriteLoop_imap g.importerMap ext root importer resolver timestamp
      source.toList (lexResult ext source)
      ⟨MagicStringState.mk0 source, ∅, g.importerMap, false⟩
      (by rw [derivedImap_empty])
    unfold rewriteImportsE
    simp only [hs, if_true, loopRun]
    rcases hrun : rewriteLoop ext root importer resolver timestamp source.toList
        (lexResult ext source)
        ⟨MagicStringState.mk0 source, ∅, g.importerMap, false⟩ with ⟨st, ok⟩
    rw [hrun] at himap
    simp only at himap
    cases ok with
    | true =>
      right; right
      exact ⟨st.curr, by simp [himap]⟩
    | false =>
      right; left
      simp [exceptOk]
  · have hsf : shouldRewrite ext source = false := by
      cases hcc : shouldRewrite ext source
      · rfl
      · exact absurd hcc hs
    left
    unfold rewriteImportsE
    simp [hsf]

/-- One successful `rewriteImports` call preserves the graph invariant. -/
lemma applyCall_inv (c : RewriteCall) (g : Graph) (hok : callOk c g = true)
    (hInv : GraphInv g) : GraphInv (applyCall c g) := by
  have hsnd := rewriteImports_snd c.ext c.root c.source c.importer c.resolver c.timestamp g
  unfold applyCall
  rw [hsnd]
  rcases rewriteImportsE_graph c.ext c.root c.source c.importer c.resolver c.timestamp g
    with h | h | ⟨curr, h⟩
  · rw [h]
    exact hInv
  · unfold callOk at hok
    rw [hok] at h
    cases h
  · rw [h]
    exact graphInv_update g hInv c.importer curr

/-- Replaying any sequence of successful calls preserves the graph
invariant. -/
lemma applyCalls_inv : ∀ (calls : List RewriteCall) (g : Graph),
    GraphInv g → allOk calls g → GraphInv (applyCalls calls g)
  | [], _, h, _ => h
  | c :: cs, g, h, hok => applyCalls_inv cs (applyCall c g) (applyCall_inv c g hok.1 h) hok.2

/-- The boot-time graph (both maps empty) satisfies the invariant. -/
lemma graphInv_empty : GraphInv Graph.empty := by
  intro a b
  simp [memImporters, memImportees, Graph.empty]

/-- C1: starting from the boot-time graph, after any sequence of
`rewriteImports` calls that complete without throwing, `b ∈ importers[a]` iff
`a ∈ importees[b]`; in particular an importee dropped from an importer's set
loses that importer in its importer entry, and every currently recorded
importee of an importer has that importer in its importer entry. -/
theorem c1_import_graph_bidirectional :
    GraphInv Graph.empty ∧
    (∀ calls : List RewriteCall, allOk calls Graph.empty →
      GraphInv (applyCalls calls Graph.empty)) ∧
    (∀ calls : List RewriteCall, allOk calls Graph.empty →
      ∀ importer x : String,
        (x ∈ memImportees (applyCalls calls Graph.empty) importer →
          importer ∈ memImporters (applyCalls calls Graph.empty) x) ∧
        (x ∉ memImportees (applyCalls calls Graph.empty) importer →
          importer ∉ memImporters (applyCalls calls Graph.empty) x)) := by
  refine ⟨graphInv_empty, ?_, ?_⟩
  · intro calls h
    exact applyCalls_inv calls Graph.empty graphInv_empty h
  · intro calls h importer x
    have hI := applyCalls_inv calls Graph.empty graphInv_empty h x importer
    exact ⟨fun hx => hI.mpr hx, fun hx hc => hx (hI.mp hc)⟩

/-- Witness for C1: one concrete successful call that adds the edge
`/main.js` imports `/@modules/x`, on which the invariant is instantiated. -/
theorem c1_witness :
    allOk [cW] Graph.empty ∧
    ("/main.js" ∈ memImporters (applyCalls [cW] Graph.empty) "/@modules/x" ↔
      "/@modules/x" ∈ memImportees (applyCalls [cW] Graph.empty) "/main.js") :=
  ⟨⟨by decide, trivial⟩,
   c1_import_graph_bidirectional.2.1 [cW] ⟨by decide, trivial⟩ "/@modules/x" "/main.js"⟩

/-- C1 counterexample: after a successful call that records the edge
`/main.js` imports `/@modules/x` followed by a call for the same importer that
throws inside the rewrite loop, the graph holds `/main.js` in
`importers[/@modules/x]` while `importees[/main.js]` no longer contains
`/@modules/x` — the biconditional fails after this sequence of calls. -/
theorem c1_counterexample :
    "/main.js" ∈ memImporters (applyCalls [cW, cBadW] Graph.empty) "/@modules/x" ∧
    "/@modules/x" ∉ memImportees (applyCalls [cW, cBadW] Graph.empty) "/main.js" := by decide
